import Mathlib

/-!
Verification of the IEEE 1547.1 pass/fail evaluation engine
(`1547.1/Lib/svpelab/p1547.py`).

The development shallowly embeds the numeric core of the library:

* the control-function target laws of `CriteriaValidation.update_target_value`
  (VV, VW, CPF, CRP, WV, FW, LAP) and the PRI combination of
  `CriteriaValidation.calculate_target_values`;
* the standard curve tables of `VoltVar.set_params`, `VoltWatt.set_params`
  and `FrequencyWatt.set_params`;
* the open-loop response model `calculate_open_loop_value` and the transient
  verdict `open_loop_resp_criteria`;
* the step-label generator of `UtilParameters`;
* the ride-through sequence builders (`VoltageRideThrough`,
  `FrequencyRideThrough`, `PhaseChangeRideThrough`) and the fixed-slot array
  padding `extend_list_end`.

Python floats are modelled by exact rationals (`ℚ`); the exponential response
model, which is irreducibly real-valued, lives over `ℝ`.  Python's `round`
(banker's rounding) and `int` (truncation toward zero) are modelled exactly.
-/

namespace P1547

/-- Source constant `FW  = 'FW'` (Frequency-Watt). -/
def FW : String := "FW"

/-- Source constant `CPF = 'CPF'` (Constant Power Factor). -/
def CPF : String := "CPF"

/-- Source constant `VW  = 'VW'` (Volt-Watt). -/
def VW : String := "VW"

/-- Source constant `VV  = 'VV'` (Volt-Var). -/
def VV : String := "VV"

/-- Source constant `WV  = 'WV'` (Watt-Var). -/
def WV : String := "WV"

/-- Source constant `CRP = 'CRP'` (Constant Reactive Power). -/
def CRP : String := "CRP"

/-- Source constant `LAP = 'LAP'` (Limit Active Power). -/
def LAP : String := "LAP"

/-- Source constant `PRI = 'PRI'` (Priority). -/
def PRI : String := "PRI"

/-- Python's `round` ties-to-even integer rounding (banker's rounding),
exact on rationals. -/
def roundHalfEven (x : ℚ) : ℤ :=
  if x - ⌊x⌋ < 1/2 then ⌊x⌋
  else if 1/2 < x - ⌊x⌋ then ⌊x⌋ + 1
  else if ⌊x⌋ % 2 = 0 then ⌊x⌋ else ⌊x⌋ + 1

/-- Python's `round(x, ndigits)` on rationals: scale, round half to even,
unscale. -/
def pyRound (ndigits : ℕ) (x : ℚ) : ℚ :=
  (roundHalfEven (x * (10:ℚ)^ndigits) : ℚ) / (10:ℚ)^ndigits

/-- Python's `int(x)`: truncation toward zero. -/
def pyInt (x : ℚ) : ℤ :=
  if 0 ≤ x then ⌊x⌋ else -⌊-x⌋

/-- Piecewise-linear interpolation, mirroring `numpy.interp` on a list of
`(x, y)` break-points with increasing `x`: values are clamped to the first /
last `y` outside the table and linearly interpolated inside. -/
def interp (x : ℚ) : List (ℚ × ℚ) → ℚ
  | [] => 0
  | [(_, y1)] => y1
  | (x1, y1) :: (x2, y2) :: rest =>
    if x ≤ x1 then y1
    else if x ≤ x2 then y1 + (x - x1) * (y2 - y1) / (x2 - x1)
    else interp x ((x2, y2) :: rest)

/-- Equipment-under-test parameters (`EutParameters.__init__`).  Only the
fields consumed by the embedded functions are kept; `absorb` models
`ts.param_value('eut.abs_enabled') == 'Yes'`. -/
structure Eut where
  v_nom : ℚ
  s_rated : ℚ
  v_low : ℚ
  v_high : ℚ
  f_nom : ℚ
  f_min : ℚ
  f_max : ℚ
  p_rated : ℚ
  p_rated_prime : ℚ
  p_min : ℚ
  var_rated : ℚ
  absorb : Bool
deriving DecidableEq

/-- `MRA['V'] = 0.01 * v_nom` (Table 3, IEEE Std 1547-2018). -/
def Eut.mraV (e : Eut) : ℚ := 0.01 * e.v_nom

/-- `MRA['Q'] = 0.05 * s_rated`. -/
def Eut.mraQ (e : Eut) : ℚ := 0.05 * e.s_rated

/-- `MRA['P'] = 0.05 * s_rated`. -/
def Eut.mraP (e : Eut) : ℚ := 0.05 * e.s_rated

/-- `MRA['F'] = 0.01`. -/
def Eut.mraF (_ : Eut) : ℚ := 0.01

/-- `MRA['T'] = 0.01`. -/
def Eut.mraT (_ : Eut) : ℚ := 0.01

/-- One Volt-Var parameter set (`self.param[VV][curve]`). -/
structure VVCurve where
  V1 : ℚ
  V2 : ℚ
  V3 : ℚ
  V4 : ℚ
  Q1 : ℚ
  Q2 : ℚ
  Q3 : ℚ
  Q4 : ℚ
  TR : ℚ
deriving DecidableEq

/-- One Volt-Watt parameter set (`self.param[VW][curve]`). -/
structure VWCurve where
  V1 : ℚ
  V2 : ℚ
  P1 : ℚ
  P2 : ℚ
  TR : ℚ
deriving DecidableEq

/-- One Watt-Var parameter set (`self.param[WV][curve]`), restricted to the
break-points read by `update_target_value`. -/
structure WVCurve where
  P1 : ℚ
  P2 : ℚ
  P3 : ℚ
  Q1 : ℚ
  Q2 : ℚ
  Q3 : ℚ
deriving DecidableEq

/-- One Frequency-Watt parameter set (`self.param[FW][curve]`). -/
structure FWCurve where
  dbf : ℚ
  kof : ℚ
  TR : ℚ
  f_small : ℚ
deriving DecidableEq

/-- `VoltVar.set_params` (Tables 25-27, IEEE Std 1547.1-2020, category B).
Index `i : Fin 3` models source curve number `i+1`. -/
def vvSetParams (e : Eut) : Fin 3 → VVCurve
  | 0 => ⟨pyRound 2 (0.92 * e.v_nom), pyRound 2 (0.98 * e.v_nom),
          pyRound 2 (1.02 * e.v_nom), pyRound 2 (1.08 * e.v_nom),
          pyRound 2 (e.s_rated * 0.44), pyRound 2 (e.s_rated * 0.0),
          pyRound 2 (e.s_rated * 0.0), pyRound 2 (e.s_rated * (-0.44)), 5.0⟩
  | 1 => ⟨pyRound 2 (0.88 * e.v_nom), pyRound 2 (1.04 * e.v_nom),
          pyRound 2 (1.07 * e.v_nom), pyRound 2 (1.10 * e.v_nom),
          pyRound 2 (e.var_rated * 1.0), pyRound 2 (e.var_rated * 0.5),
          pyRound 2 (e.var_rated * 0.5), pyRound 2 (e.var_rated * (-1.0)), 1.0⟩
  | 2 => ⟨pyRound 2 (0.90 * e.v_nom), pyRound 2 (0.93 * e.v_nom),
          pyRound 2 (0.96 * e.v_nom), pyRound 2 (1.10 * e.v_nom),
          pyRound 2 (e.var_rated * 1.0), pyRound 2 (e.var_rated * (-0.5)),
          pyRound 2 (e.var_rated * (-0.5)), pyRound 2 (e.var_rated * (-1.0)), 90.0⟩

/-- `VoltWatt.set_params` (Tables 31-33): base `V1/V2/P1/TR` per curve, then
`P2` set to `int(min(0.2*p_rated, p_min))` equivalent branching, overwritten
for absorption-capable EUTs.  Index `i : Fin 3` models source curve `i+1`. -/
def vwSetParams (e : Eut) (i : Fin 3) : VWCurve :=
  let p2 : ℚ :=
    if e.absorb then
      (match i with
       | 0 => (0 : ℚ)
       | 1 => e.p_rated_prime
       | 2 => e.p_rated_prime)
    else if e.p_min > 0.2 * e.p_rated then (pyInt (0.2 * e.p_rated) : ℚ)
    else (pyInt e.p_min : ℚ)
  match i with
  | 0 => ⟨pyRound 2 (1.06 * e.v_nom), pyRound 2 (1.10 * e.v_nom),
          pyRound 2 e.p_rated, p2, 10.0⟩
  | 1 => ⟨pyRound 2 (1.05 * e.v_nom), pyRound 2 (1.10 * e.v_nom),
          pyRound 2 e.p_rated, p2, 90.0⟩
  | 2 => ⟨pyRound 2 (1.09 * e.v_nom), pyRound 2 (1.10 * e.v_nom),
          pyRound 2 e.p_rated, p2, 0.5⟩

/-- `FrequencyWatt.set_params` (Tables 34-35): fixed deadband and droop
constants per curve; `p_small` defaults to `0.05` in the source and `tr`
models the configurable per-test response time. -/
def fwSetParams (e : Eut) (p_small tr : ℚ) : Fin 3 → FWCurve
  | 0 => ⟨0.036, 0.05, tr, p_small * e.f_nom * 0.05⟩
  | 1 => ⟨0.017, 0.03, tr, p_small * e.f_nom * 0.02⟩
  | 2 => ⟨1.0, 0.05, tr, p_small * e.f_nom * 0.02⟩

/-- Step-dictionary values (`step_dict`) read by the target laws. -/
structure StepDict where
  V : ℚ
  F : ℚ
  P : ℚ
  Q : ℚ
  PF : ℚ
deriving DecidableEq

/-- VV branch of `update_target_value` (value path):
`q = np.interp(value, [V1..V4], [Q1..Q4]); q *= pwr; round(q, 1)`. -/
def updateTargetValueVV (pwr : ℚ) (c : VVCurve) (value : ℚ) : ℚ :=
  pyRound 1 (interp value [(c.V1, c.Q1), (c.V2, c.Q2), (c.V3, c.Q3), (c.V4, c.Q4)] * pwr)

/-- VW branch of `update_target_value` (value path):
interpolate on `[V1, V2] → [P1, P2]`, clamp below at `p_min`, scale by `pwr`,
round to one decimal. -/
def updateTargetValueVW (e : Eut) (pwr : ℚ) (c : VWCurve) (value : ℚ) : ℚ :=
  let p0 := interp value [(c.V1, c.P1), (c.V2, c.P2)]
  let p1 := if p0 < e.p_min then e.p_min else p0
  pyRound 1 (p1 * pwr)

/-- CPF branch of `update_target_value` (value path):
`sign = -1 if PF > 0 else 1`, magnitude `sqrt(value^2*(1/PF^2 - 1))`.
`math.sqrt` is irrational, so the square root is an explicit parameter. -/
def updateTargetValueCPF (sqrtFn : ℚ → ℚ) (sd : StepDict) (value : ℚ) : ℚ :=
  let sign : ℚ := if sd.PF > 0 then -1 else 1
  sqrtFn (value ^ 2 * (1 / sd.PF ^ 2 - 1)) * sign

/-- CRP branch of `update_target_value`: `round(step_dict['Q'], 1)`. -/
def updateTargetValueCRP (sd : StepDict) : ℚ :=
  pyRound 1 sd.Q

/-- WV branch of `update_target_value` (value path): clamp the measured power
into `[p_min, p_rated]`, interpolate on `[P1,P2,P3] → [Q1,Q2,Q3]`, scale. -/
def updateTargetValueWV (e : Eut) (pwr : ℚ) (c : WVCurve) (value : ℚ) : ℚ :=
  let p0 := value
  let p1 := if p0 < e.p_min then e.p_min else if p0 > e.p_rated then e.p_rated else p0
  interp p1 [(c.P1, c.Q1), (c.P2, c.Q2), (c.P3, c.Q3)] * pwr

/-- FW branch of `update_target_value`: droop law with deadband `dbf` around
`f_nom`; `p_db = pwr` capped at `max_pwr_lim/100`; over-frequency droops down
(clamped at `p_min`), under-frequency droops up (clamped at available power
`pwr * p_rated`).  The source's three `if/elif` guards cover all inputs; the
residual `None` return is unreachable and therefore not modelled. -/
def updateTargetValueFW (e : Eut) (pwr maxPwrLim : ℚ) (c : FWCurve) (value : ℚ) : ℚ :=
  let f_dob := e.f_nom + c.dbf
  let f_dub := e.f_nom - c.dbf
  let p_db := if pwr * 100 < maxPwrLim then pwr else maxPwrLim / 100
  let p_avl := pwr * e.p_rated
  if f_dub ≤ value ∧ value ≤ f_dob then
    p_db * e.p_rated
  else if value > f_dob then
    let p := (p_db - (value - f_dob) / (e.f_nom * c.kof)) * e.p_rated
    if p < e.p_min then e.p_min else p
  else
    let p := (p_db + (f_dub - value) / (e.f_nom * c.kof)) * e.p_rated
    if p > p_avl then p_avl else p

/-- LAP branch of `update_target_value`: `step_dict['P'] * p_rated`. -/
def updateTargetValueLAP (e : Eut) (sd : StepDict) : ℚ :=
  sd.P * e.p_rated

/-- Evaluation context: the EUT parameters, the power level `self.pwr`, the
limit `self.max_pwr_lim`, and the curve parameter sets selected by
`self.curve` (the `self.param[FUNCTION][self.curve]` lookups resolved). -/
structure Ctx where
  eut : Eut
  pwr : ℚ
  maxPwrLim : ℚ
  vv : VVCurve
  vw : VWCurve
  wv : WVCurve
  fw : FWCurve
deriving DecidableEq

/-- `CriteriaValidation.update_target_value(function, value, step_dict)`.
`none` models Python's implicit `return None` when no branch matches the
function name (including `PRI`, which only logs and falls through). -/
def updateTargetValue (sqrtFn : ℚ → ℚ) (ctx : Ctx) (function : String)
    (value : ℚ) (sd : StepDict) : Option ℚ :=
  if function = VV then some (updateTargetValueVV ctx.pwr ctx.vv value)
  else if function = VW then some (updateTargetValueVW ctx.eut ctx.pwr ctx.vw value)
  else if function = CPF then some (updateTargetValueCPF sqrtFn sd value)
  else if function = CRP then some (updateTargetValueCRP sd)
  else if function = WV then some (updateTargetValueWV ctx.eut ctx.pwr ctx.wv value)
  else if function = FW then some (updateTargetValueFW ctx.eut ctx.pwr ctx.maxPwrLim ctx.fw value)
  else if function = LAP then some (updateTargetValueLAP ctx.eut sd)
  else none

/-- Python runtime error raised by `calculate_target_values` when the function
name matches no branch: the local `target` is never bound and the final
`return target, target_min, target_max` raises `UnboundLocalError`. -/
inductive PyErr where
  | unboundLocalError
deriving DecidableEq

/-- Result triple of `calculate_target_values`; `Option` models the `None`
values of the unanalyzed-label LAP branch. -/
structure Window where
  target : Option ℚ
  target_min : Option ℚ
  target_max : Option ℚ
deriving DecidableEq

/-- `CriteriaValidation.calculate_target_values(function)`.  Measurements
pulled from the DAQ (`get_measurement_total`) are explicit arguments
`v_meas` / `f_meas` / `p_meas`; `currentStepLabel` models
`self.current_step_label` read by the LAP branch.  This mirrors the source
literally; in particular, the PRI branch's `target_max_fw` is the FW law at
`f_meas - MRA['F']*1.5` with no `+ MRA['P']*1.5` expansion, exactly as in
the code. -/
def calculateTargetValues (sqrtFn : ℚ → ℚ) (ctx : Ctx) (function : String)
    (v_meas f_meas p_meas : ℚ) (sd : StepDict) (currentStepLabel : String) :
    Except PyErr Window :=
  let e := ctx.eut
  if function = PRI then
    let target_vw := updateTargetValueVW e ctx.pwr ctx.vw v_meas
    let target_min_vw := updateTargetValueVW e ctx.pwr ctx.vw (v_meas + e.mraV * 1.5) - e.mraP * 1.5
    let target_max_vw := updateTargetValueVW e ctx.pwr ctx.vw (v_meas - e.mraV * 1.5) + e.mraP * 1.5
    let target_fw := updateTargetValueFW e ctx.pwr ctx.maxPwrLim ctx.fw f_meas
    let target_min_fw := updateTargetValueFW e ctx.pwr ctx.maxPwrLim ctx.fw (f_meas + e.mraF * 1.5) - e.mraP * 1.5
    let target_max_fw := updateTargetValueFW e ctx.pwr ctx.maxPwrLim ctx.fw (f_meas - e.mraF * 1.5)
    if target_vw < target_fw then
      .ok ⟨some target_vw, some target_min_vw, some target_max_vw⟩
    else
      .ok ⟨some target_fw, some target_min_fw, some target_max_fw⟩
  else if function = VV then
    .ok ⟨some (updateTargetValueVV ctx.pwr ctx.vv v_meas),
         some (updateTargetValueVV ctx.pwr ctx.vv (v_meas + e.mraV * 1.5) - e.mraQ * 1.5),
         some (updateTargetValueVV ctx.pwr ctx.vv (v_meas - e.mraV * 1.5) + e.mraQ * 1.5)⟩
  else if function = VW then
    .ok ⟨some (updateTargetValueVW e ctx.pwr ctx.vw v_meas),
         some (updateTargetValueVW e ctx.pwr ctx.vw (v_meas + e.mraV * 1.5) - e.mraP * 1.5),
         some (updateTargetValueVW e ctx.pwr ctx.vw (v_meas - e.mraV * 1.5) + e.mraP * 1.5)⟩
  else if function = CPF then
    .ok ⟨some (updateTargetValueCPF sqrtFn sd p_meas),
         some (updateTargetValueCPF sqrtFn sd (p_meas + e.mraP * 1.5) - 1.5 * e.mraQ),
         some (updateTargetValueCPF sqrtFn sd (p_meas - e.mraP * 1.5) + 1.5 * e.mraQ)⟩
  else if function = CRP then
    .ok ⟨some sd.Q, some (sd.Q - e.mraQ * 1.5), some (sd.Q + e.mraQ * 1.5)⟩
  else if function = WV then
    .ok ⟨some (updateTargetValueWV e ctx.pwr ctx.wv p_meas),
         some (updateTargetValueWV e ctx.pwr ctx.wv (p_meas + e.mraP * 1.5) - e.mraQ * 1.5),
         some (updateTargetValueWV e ctx.pwr ctx.wv (p_meas - e.mraP * 1.5) + e.mraQ * 1.5)⟩
  else if function = FW then
    .ok ⟨some (updateTargetValueFW e ctx.pwr ctx.maxPwrLim ctx.fw f_meas),
         some (updateTargetValueFW e ctx.pwr ctx.maxPwrLim ctx.fw (f_meas + e.mraF * 1.5) - e.mraP * 1.5),
         some (updateTargetValueFW e ctx.pwr ctx.maxPwrLim ctx.fw (f_meas - e.mraF * 1.5) + e.mraP * 1.5)⟩
  else if function = LAP then
    if currentStepLabel = "Step C" then
      .ok ⟨some (updateTargetValueLAP e sd),
           some (updateTargetValueLAP e sd - e.mraP * 1.5),
           some (updateTargetValueLAP e sd + e.mraP * 1.5)⟩
    else if currentStepLabel = "Step D" ∨ currentStepLabel = "Step E" then
      .ok ⟨some (updateTargetValueFW e ctx.pwr ctx.maxPwrLim ctx.fw f_meas),
           some (updateTargetValueFW e ctx.pwr ctx.maxPwrLim ctx.fw (f_meas + e.mraF * 1.5) - e.mraP * 1.5),
           some (updateTargetValueFW e ctx.pwr ctx.maxPwrLim ctx.fw (f_meas - e.mraF * 1.5) + e.mraP * 1.5)⟩
    else if currentStepLabel = "Step F" then
      .ok ⟨some (updateTargetValueWV e ctx.pwr ctx.wv p_meas),
           some (updateTargetValueWV e ctx.pwr ctx.wv (p_meas + e.mraP * 1.5) - e.mraQ * 1.5),
           some (updateTargetValueWV e ctx.pwr ctx.wv (p_meas - e.mraP * 1.5) + e.mraQ * 1.5)⟩
    else
      .ok ⟨none, none, none⟩
  else
    .error .unboundLocalError

open Classical in
/-- `CriteriaValidation.calculate_open_loop_value(y0, y_ss, duration, tr)`:
first-order exponential response with time constant `tr / (-ln 0.1)`. -/
noncomputable def calculateOpenLoopValue (y0 y_ss duration tr : ℝ) : ℝ :=
  (y_ss - y0) * (1 - Real.exp (-(duration / (tr / (-Real.log 0.1))))) + y0

/-- `open_loop_resp_criteria`: the effective initial value, `0.0` for CRP
scripts and the recorded initial value otherwise. -/
def olYStart (script : String) (initialY : ℝ) : ℝ :=
  if script = CRP then 0 else initialY

/-- `open_loop_resp_criteria`: the time-accuracy term, `0` for CRP scripts
and `MRA['T'] * duration` otherwise. -/
def olMraT (script : String) (mraT duration : ℝ) : ℝ :=
  if script = CRP then 0 else mraT * duration

open Classical in
/-- `open_loop_resp_criteria`: "increasing values of y", i.e.
`y_start <= y_target` on the open-loop curve. -/
noncomputable def olIncreasing (script : String) (initialY y_ss duration tr : ℝ) : Prop :=
  olYStart script initialY ≤
    calculateOpenLoopValue (olYStart script initialY) y_ss duration tr

open Classical in
/-- `open_loop_resp_criteria`: the lower envelope `y_min`, evaluated on the
open-loop curve at the time-accuracy-perturbed duration and expanded by
`-1.5 * MRA(y)`. -/
noncomputable def olYMin (script : String) (initialY y_ss duration tr mraT mraY : ℝ) : ℝ :=
  if olIncreasing script initialY y_ss duration tr then
    calculateOpenLoopValue (olYStart script initialY) y_ss
      (duration - 1.5 * olMraT script mraT duration) tr - 1.5 * mraY
  else
    calculateOpenLoopValue (olYStart script initialY) y_ss
      (duration + 1.5 * olMraT script mraT duration) tr - 1.5 * mraY

open Classical in
/-- `open_loop_resp_criteria`: the upper envelope `y_max`. -/
noncomputable def olYMax (script : String) (initialY y_ss duration tr mraT mraY : ℝ) : ℝ :=
  if olIncreasing script initialY y_ss duration tr then
    calculateOpenLoopValue (olYStart script initialY) y_ss
      (duration + 1.5 * olMraT script mraT duration) tr + 1.5 * mraY
  else
    calculateOpenLoopValue (olYStart script initialY) y_ss
      (duration - 1.5 * olMraT script mraT duration) tr + 1.5 * mraY

open Classical in
/-- `CriteriaValidation.open_loop_resp_criteria`: the transient pass/fail
verdict (`'Pass'` mapped to `true`).  CRP scripts get the one-sided check,
all other scripts the two-sided check. -/
noncomputable def openLoopRespCriteria (script : String)
    (initialY y_ss y_meas duration tr mraT mraY : ℝ) : Bool :=
  if script = CRP then
    if olIncreasing script initialY y_ss duration tr then
      decide (olYMin script initialY y_ss duration tr mraT mraY ≤ y_meas)
    else
      decide (y_meas ≤ olYMax script initialY y_ss duration tr mraT mraY)
  else
    decide (olYMin script initialY y_ss duration tr mraT mraY ≤ y_meas ∧
            y_meas ≤ olYMax script initialY y_ss duration tr mraT mraY)

/-- State of the step-label generator: `self.step_label` (a character code)
and `self.double_letter_label`. -/
structure LabelState where
  code : ℤ
  dbl : Bool
deriving DecidableEq

/-- `UtilParameters.set_step_label(starting_label)`: stores `ord(label)` and
clears the double-letter flag.  The source defaults `starting_label` to
`'a'` (code 97) when none is given. -/
def setStepLabel (startCode : ℤ) : LabelState :=
  ⟨startCode, false⟩

/-- `UtilParameters.get_step_label()`: when the code passes `ord('Z') = 90`,
reset to `ord('A') = 65` and switch to double letters; emit `Step X` or
`Step XX`; increment the code. -/
def getStepLabel (s : LabelState) : String × LabelState :=
  let s' : LabelState := if s.code > 90 then ⟨65, true⟩ else s
  let ch := Char.ofNat s'.code.toNat
  let lbl := if s'.dbl then (("Step ".push ch).push ch) else ("Step ".push ch)
  (lbl, ⟨s'.code + 1, s'.dbl⟩)

/-- The list of labels produced by `n` successive `get_step_label()` calls. -/
def labelSeq : LabelState → ℕ → List String
  | _, 0 => []
  | s, n + 1 =>
    let r := getStepLabel s
    r.1 :: labelSeq r.2 n

/-- One ride-through test condition: `pd.Series([condition, duration, value])`
(`VRT_CONDITION` / `MIN_DURATION` / `VRT_VALUES` and the FRT/PCRT
analogues). -/
structure TestCondition where
  cid : ℚ
  dur : ℚ
  val : ℚ
deriving DecidableEq

/-- One row of a generated test-sequence DataFrame after the timing scan:
condition id, minimum duration, disturbance value, absolute start and end
timestamps. -/
structure SeqRow where
  cid : ℚ
  dur : ℚ
  val : ℚ
  start : ℚ
  stop : ℚ
deriving DecidableEq

/-- The timing scan shared by all three `get_test_sequence` methods:
`start[0] = T0`, `end[i] = start[i] + duration[i]`,
`start[i+1] = end[i-1+1] = end[i]`. -/
def buildTimed (t0 : ℚ) : List TestCondition → List SeqRow
  | [] => []
  | c :: cs => ⟨c.cid, c.dur, c.val, t0, t0 + c.dur⟩ :: buildTimed (t0 + c.dur) cs

/-- The four voltage ride-through modes produced by `set_vrt_modes`
(`LV_CAT_2`, `LV_CAT_3`, `HV_CAT_2`, `HV_CAT_3`). -/
inductive VrtMode where
  | lvCat2
  | lvCat3
  | hvCat2
  | hvCat3
deriving DecidableEq

/-- Ride-through condition letters (`TEST_CONDITION` keys of
`set_test_conditions`): `Bp`, `Cp`, `Dp` model the primed letters `B'`,
`C'`, `D'`. -/
inductive CondLetter where
  | A
  | B
  | Bp
  | C
  | Cp
  | D
  | Dp
  | E
  | F
deriving DecidableEq

/-- Condition id per VRT mode and condition letter (`set_test_conditions`,
Tables 4, 5, 7 and 8; a prime adds 10 to the id). -/
def vrtCid : VrtMode → CondLetter → ℚ
  | _, .A => 1
  | _, .B => 2
  | _, .Bp => 12
  | _, .C => 3
  | _, .Cp => 13
  | _, .D => 4
  | _, .Dp => 14
  | _, .E => 5
  | _, .F => 6

/-- Minimum duration per VRT mode and condition letter (`set_test_conditions`;
identical for the `Figure` and `Random` range-step policies).  Letters absent
from a mode's table are assigned duration 0 and never referenced. -/
def vrtDur : VrtMode → CondLetter → ℚ
  | .lvCat2, .A => 10
  | .lvCat2, .B => 0.160
  | .lvCat2, .C => 0.160
  | .lvCat2, .D => 2.68
  | .lvCat2, .Dp => 7.68
  | .lvCat2, .E => 2.0
  | .lvCat2, .F => 120.0
  | .lvCat3, .A => 5
  | .lvCat3, .B => 1
  | .lvCat3, .C => 9
  | .lvCat3, .Cp => 9
  | .lvCat3, .D => 10.0
  | .lvCat3, .E => 120.0
  | .hvCat2, .A => 10
  | .hvCat2, .B => 0.2
  | .hvCat2, .C => 0.3
  | .hvCat2, .D => 0.5
  | .hvCat2, .E => 120.0
  | .hvCat3, .A => 5
  | .hvCat3, .B => 12
  | .hvCat3, .Bp => 12
  | .hvCat3, .C => 120
  | _, _ => 0

/-- Residual-voltage magnitudes of the `Figure` range-step policy
(`set_test_conditions`), as a function of `mra_v_pu = MRA['V'] / v_nom`.
The `Random` policy draws these values from the standard's sub-ranges
instead; theorems about timing quantify over an arbitrary magnitude
assignment and so cover both policies. -/
def vrtFigureVal (mra_v_pu : ℚ) : VrtMode → CondLetter → ℚ
  | .lvCat2, .A => 0.94
  | .lvCat2, .B => 0.3 - 2 * mra_v_pu
  | .lvCat2, .C => 0.45 - 2 * mra_v_pu
  | .lvCat2, .D => 0.65
  | .lvCat2, .Dp => 0.67 + 2 * mra_v_pu
  | .lvCat2, .E => 0.88
  | .lvCat2, .F => 0.94
  | .lvCat3, .A => 0.94
  | .lvCat3, .B => 0.05 - 2 * mra_v_pu
  | .lvCat3, .C => 0.5 - 2 * mra_v_pu
  | .lvCat3, .Cp => 0.52 + 2 * mra_v_pu
  | .lvCat3, .D => 0.7
  | .lvCat3, .E => 0.94
  | .hvCat2, .A => 1.0
  | .hvCat2, .B => 1.2 - 2 * mra_v_pu
  | .hvCat2, .C => 1.175
  | .hvCat2, .D => 1.15
  | .hvCat2, .E => 1.0
  | .hvCat3, .A => 1.05
  | .hvCat3, .B => 1.2 - 2 * mra_v_pu
  | .hvCat3, .Bp => 1.12
  | .hvCat3, .C => 1.05
  | _, _ => 0

/-- Letter order of `VoltageRideThrough.get_test_sequence` per mode and
consecutive flag (the fixed concatenation patterns of the standard). -/
def vrtLetters : VrtMode → Bool → List CondLetter
  | .lvCat2, true =>
      [.A, .B, .C, .D, .E,
       .A, .B, .C, .D, .E, .F,
       .A, .B, .C, .Dp, .F]
  | .lvCat2, false => [.A, .B, .C, .D, .E, .F]
  | .lvCat3, true =>
      [.A, .B, .C, .D,
       .A, .B, .C, .D,
       .A, .B, .C, .D, .E,
       .A, .B, .Cp, .D, .E]
  | .lvCat3, false => [.A, .B, .C, .D, .E]
  | .hvCat2, true =>
      [.A, .B, .C, .D,
       .A, .B, .C, .D, .E]
  | .hvCat2, false => [.A, .B, .C, .D, .E]
  | .hvCat3, true =>
      [.A, .B,
       .A, .B,
       .A, .B, .C,
       .A, .Bp, .C]
  | .hvCat3, false => [.A, .B, .C]

/-- `VoltageRideThrough.get_test_sequence(current_mode, test_condition)`:
append the mode's condition rows in the standard's order, then derive the
absolute timestamps by the running-sum scan starting at the EUT startup time
`T0`.  `vals` assigns the disturbance magnitude per letter (the `Figure` or
`Random` policy). -/
def vrtGetTestSequence (m : VrtMode) (consecutive : Bool) (vals : CondLetter → ℚ)
    (t0 : ℚ) : List SeqRow :=
  buildTimed t0 ((vrtLetters m consecutive).map fun L => ⟨vrtCid m L, vrtDur m L, vals L⟩)

/-- `FrequencyRideThrough.get_test_sequence`: the fixed three-step sequence
`Step E` (nominal, 1 s), `Step G` (disturbance, configured period), `Step H`
(nominal, 11 s), timed by the same running-sum scan.  `period` and `value`
model the `lf_period`/`lf_parameter` (or `hf_...`) script parameters. -/
def frtGetTestSequence (f_nom period value t0 : ℚ) : List SeqRow :=
  buildTimed t0 [⟨1, 1, f_nom⟩, ⟨2, period, value⟩, ⟨1, 11, f_nom⟩]

/-- Condition rows of `PhaseChangeRideThrough.set_test_conditions`
(Table 9); the source's letter `G` is an alias of `A` ("a computational
trick"), modelled by reusing `.A`. -/
def pcrtCondition : CondLetter → TestCondition
  | .A => ⟨1.0, 30, 0.0⟩
  | .B => ⟨2.0, 0.5, 60.0⟩
  | .C => ⟨3.0, 0.5, 60.0⟩
  | .D => ⟨4.0, 0.5, 60.0⟩
  | .E => ⟨5.0, 60.0, 20.0⟩
  | _ => ⟨6.0, 60.0, 20.0⟩

/-- `PhaseChangeRideThrough.get_test_sequence(test_num, test_condition)`:
the `A x A` pattern selected by the test number, timed by the running-sum
scan (condition `G` equals condition `A`). -/
def pcrtGetTestSequence (test_num : ℚ) (t0 : ℚ) : List SeqRow :=
  let mid : CondLetter :=
    if test_num = 1.0 then .B
    else if test_num = 2.0 then .C
    else if test_num = 3.0 then .D
    else if test_num = 4.0 then .E
    else .F
  buildTimed t0 [pcrtCondition .A, pcrtCondition mid, pcrtCondition .A]

/-- `extend_list_end(_list, extend_value, final_length)` (identical in
`VoltageRideThrough`, `FrequencyRideThrough` and `PhaseChangeRideThrough`):
`_list.extend([v] * (final_length - len(_list)))`.  With Python semantics a
non-positive multiplier yields the empty list, so an over-long list is
returned unchanged; `ℕ` truncated subtraction models this exactly. -/
def extendListEnd (l : List ℚ) (v : ℚ) (final_length : ℕ) : List ℚ :=
  l ++ List.replicate (final_length - l.length) v

/-- The literal `CLEARING_STEPS` list of `set_vrt_model_parameters`:
eighteen ones. -/
def clearingSteps : List ℚ := List.replicate 18 1

/-- The list-valued arrays that `set_vrt_model_parameters` hands to the HIL
simulator driver, each padded with `0.0` to the driver's 20 slots (the
scalar `MODE` parameter and the driver call itself are external I/O). -/
def vrtModelArrays (rows : List SeqRow) : List (List ℚ) :=
  [extendListEnd clearingSteps 0 20,
   extendListEnd (rows.map (·.cid)) 0 20,
   extendListEnd (rows.map (·.start)) 0 20,
   extendListEnd (rows.map (·.stop)) 0 20,
   extendListEnd (rows.map (·.val)) 0 20]

/-- The arrays of `set_frt_model_parameters`, padded to 4 slots. -/
def frtModelArrays (rows : List SeqRow) : List (List ℚ) :=
  [extendListEnd (rows.map (·.cid)) 0 4,
   extendListEnd (rows.map (·.start)) 0 4,
   extendListEnd (rows.map (·.stop)) 0 4,
   extendListEnd (rows.map (·.val)) 0 4]

/-- The arrays of `set_pcrt_model_parameters`, padded to 11 slots. -/
def pcrtModelArrays (rows : List SeqRow) : List (List ℚ) :=
  [extendListEnd (rows.map (·.cid)) 0 11,
   extendListEnd (rows.map (·.start)) 0 11,
   extendListEnd (rows.map (·.stop)) 0 11,
   extendListEnd (rows.map (·.val)) 0 11]

/-! ## Helper lemmas about the Python primitives -/

theorem floor_le_roundHalfEven (x : ℚ) : ⌊x⌋ ≤ roundHalfEven x := by
  unfold roundHalfEven
  split_ifs <;> omega

theorem roundHalfEven_le_ceil (x : ℚ) : roundHalfEven x ≤ ⌈x⌉ := by
  unfold roundHalfEven
  split_ifs with h1 h2 h3
  · exact Int.floor_le_ceil x
  all_goals {
    have hx : (⌊x⌋ : ℚ) < x := by
      have := not_lt.mp h1
      nlinarith
    have : ⌊x⌋ < ⌈x⌉ := Int.lt_ceil.mpr hx
    omega }

theorem roundHalfEven_intCast (k : ℤ) : roundHalfEven (k : ℚ) = k := by
  unfold roundHalfEven
  rw [Int.floor_intCast]
  norm_num

theorem le_pyRound_of_le (n : ℕ) (a x : ℚ) (k : ℤ) (hk : a * (10:ℚ)^n = k)
    (h : a ≤ x) : a ≤ pyRound n x := by
  unfold pyRound
  have hpow : (0:ℚ) < (10:ℚ)^n := by positivity
  rw [le_div_iff₀ hpow]
  have h1 : (k : ℚ) ≤ x * (10:ℚ)^n := by
    rw [← hk]; nlinarith
  have h2 : k ≤ ⌊x * (10:ℚ)^n⌋ := Int.le_floor.mpr h1
  have h3 : k ≤ roundHalfEven (x * (10:ℚ)^n) :=
    le_trans h2 (floor_le_roundHalfEven _)
  calc a * (10:ℚ)^n = (k : ℚ) := hk
    _ ≤ (roundHalfEven (x * (10:ℚ)^n) : ℚ) := by exact_mod_cast h3

theorem pyRound_le_of_le (n : ℕ) (b x : ℚ) (k : ℤ) (hk : b * (10:ℚ)^n = k)
    (h : x ≤ b) : pyRound n x ≤ b := by
  unfold pyRound
  have hpow : (0:ℚ) < (10:ℚ)^n := by positivity
  rw [div_le_iff₀ hpow]
  have h1 : x * (10:ℚ)^n ≤ (k : ℚ) := by
    rw [← hk]; nlinarith
  have h2 : ⌈x * (10:ℚ)^n⌉ ≤ k := Int.ceil_le.mpr h1
  have h3 : roundHalfEven (x * (10:ℚ)^n) ≤ k :=
    le_trans (roundHalfEven_le_ceil _) h2
  calc (roundHalfEven (x * (10:ℚ)^n) : ℚ) ≤ (k : ℚ) := by exact_mod_cast h3
    _ = b * (10:ℚ)^n := hk.symm

theorem pyRound_of_mul_pow_int (n : ℕ) (x : ℚ) (k : ℤ)
    (hk : x * (10:ℚ)^n = k) : pyRound n x = x := by
  unfold pyRound
  rw [hk, roundHalfEven_intCast, ← hk]
  have hpow : ((10:ℚ)^n) ≠ 0 := by positivity
  field_simp

theorem pyInt_le_self (x : ℚ) (hx : 0 ≤ x) : (pyInt x : ℚ) ≤ x := by
  unfold pyInt
  rw [if_pos hx]
  exact Int.floor_le x

theorem interp_pair_le (x x1 y1 x2 y2 hi : ℚ) (h1 : y1 ≤ hi) (h2 : y2 ≤ hi) :
    interp x [(x1, y1), (x2, y2)] ≤ hi := by
  unfold interp
  split_ifs with ha hb
  · exact h1
  · have hx1 : x1 < x := lt_of_not_le ha
    have hd : 0 < x2 - x1 := by linarith
    have key : (x - x1) * (y2 - y1) / (x2 - x1) ≤ hi - y1 := by
      rw [div_le_iff₀ hd]
      nlinarith [mul_nonneg (le_of_lt (show (0:ℚ) < x - x1 by linarith))
                   (show (0:ℚ) ≤ hi - y2 by linarith),
                 mul_nonneg (show (0:ℚ) ≤ x2 - x by linarith)
                   (show (0:ℚ) ≤ hi - y1 by linarith)]
    linarith
  · show interp x [(x2, y2)] ≤ hi
    exact le_of_eq_of_le rfl h2

theorem le_interp_pair (x x1 y1 x2 y2 lo : ℚ) (h1 : lo ≤ y1) (h2 : lo ≤ y2) :
    lo ≤ interp x [(x1, y1), (x2, y2)] := by
  unfold interp
  split_ifs with ha hb
  · exact h1
  · have hx1 : x1 < x := lt_of_not_le ha
    have hd : 0 < x2 - x1 := by linarith
    have key : lo - y1 ≤ (x - x1) * (y2 - y1) / (x2 - x1) := by
      rw [le_div_iff₀ hd]
      nlinarith [mul_nonneg (le_of_lt (show (0:ℚ) < x - x1 by linarith))
                   (show (0:ℚ) ≤ y2 - lo by linarith),
                 mul_nonneg (show (0:ℚ) ≤ x2 - x by linarith)
                   (show (0:ℚ) ≤ y1 - lo by linarith)]
    linarith
  · show lo ≤ interp x [(x2, y2)]
    exact le_of_le_of_eq h2 rfl

/-! ## Helper lemmas about the timing scan -/

theorem buildTimed_stop_eq (t0 : ℚ) (cs : List TestCondition) :
    ∀ r ∈ buildTimed t0 cs, r.stop = r.start + r.dur := by
  induction cs generalizing t0 with
  | nil => intro r hr; simp [buildTimed] at hr
  | cons c cs ih =>
    intro r hr
    simp only [buildTimed, List.mem_cons] at hr
    rcases hr with h | h
    · subst h; rfl
    · exact ih (t0 + c.dur) r h

theorem buildTimed_head_start (t0 : ℚ) (cs : List TestCondition) :
    ∀ r, (buildTimed t0 cs).head? = some r → r.start = t0 := by
  cases cs with
  | nil => intro r hr; simp [buildTimed] at hr
  | cons c cs =>
    intro r hr
    simp only [buildTimed, List.head?_cons, Option.some.injEq] at hr
    rw [← hr]

theorem buildTimed_chain (t0 : ℚ) (cs : List TestCondition) :
    List.Chain' (fun a b => b.start = a.stop) (buildTimed t0 cs) := by
  induction cs generalizing t0 with
  | nil => simp [buildTimed]
  | cons c cs ih =>
    rw [buildTimed, List.chain'_cons']
    refine ⟨?_, ih (t0 + c.dur)⟩
    intro b hb
    exact buildTimed_head_start (t0 + c.dur) cs b hb

theorem buildTimed_start_lt_stop (t0 : ℚ) (cs : List TestCondition)
    (hpos : ∀ c ∈ cs, 0 < c.dur) :
    ∀ r ∈ buildTimed t0 cs, r.start < r.stop := by
  induction cs generalizing t0 with
  | nil => intro r hr; simp [buildTimed] at hr
  | cons c cs ih =>
    intro r hr
    simp only [buildTimed, List.mem_cons] at hr
    rcases hr with h | h
    · subst h
      have := hpos c (List.mem_cons_self c cs)
      simpa using this
    · exact ih (t0 + c.dur) (fun d hd => hpos d (List.mem_cons_of_mem c hd)) r h

/-- The timing contract of a generated ride-through sequence: the first row
starts at `T0`, every row's end is its start plus its duration, and each
row starts exactly where the previous one ends. -/
def TimedOk (t0 : ℚ) (rows : List SeqRow) : Prop :=
  (∀ r, rows.head? = some r → r.start = t0) ∧
  (∀ r ∈ rows, r.stop = r.start + r.dur) ∧
  List.Chain' (fun a b => b.start = a.stop) rows

/-- Strictness of a timed sequence: every condition occupies a non-empty
time interval (with `TimedOk` this makes all timestamps strictly
increasing). -/
def RowsStrict (rows : List SeqRow) : Prop :=
  ∀ r ∈ rows, r.start < r.stop

theorem buildTimed_timedOk (t0 : ℚ) (cs : List TestCondition) :
    TimedOk t0 (buildTimed t0 cs) :=
  ⟨buildTimed_head_start t0 cs, buildTimed_stop_eq t0 cs, buildTimed_chain t0 cs⟩

/-! ## Concrete fixtures used by the evaluation theorems -/

/-- A concrete EUT: `v_nom = 120 V`, `s_rated = 10 kVA`, `p_rated = 10 kW`,
`p_min = 1 kW`, 60 Hz system, absorption disabled. -/
def eutA : Eut := ⟨120, 10000, 105, 132, 60, 57, 63, 10000, -10000, 1000, 4400, false⟩

/-- A concrete Watt-Var curve for the evaluation context. -/
def wvA : WVCurve := ⟨2000, 5000, 10000, 0, 0, -4400⟩

/-- Evaluation context for `eutA`: full power level (`pwr = 1`), default
maximum power limit (100 %), curve 1 of each standard table. -/
def ctxA : Ctx := ⟨eutA, 1, 100, vvSetParams eutA 0, vwSetParams eutA 0, wvA, fwSetParams eutA 0.05 5 0⟩

/-- A concrete step dictionary. -/
def sdA : StepDict := ⟨120, 60, 5000, 2500, 1⟩

/-! ## C1 -/

/-- C1.  The claimed window law fails in the code: for PRI with measured
voltage 120 V and measured frequency 62 Hz (so that the FW target, 10360/3 W,
is below the VW target of 10000 W and the FW-side window is returned), the
returned `target_max` is the FW law re-evaluated at
`f_meas - 1.5*MRA(F) = 61.985 Hz` with NO `+ 1.5*MRA(P)` expansion: the code
yields 10510/3 whereas the claimed formula yields 10510/3 + 750.  Every other
branch of `calculate_target_values` (and the PRI `target_min_fw`) does apply
the expansion, so this is a slip in the code, not in the specification. -/
theorem c1_pri_fw_max_missing_expansion :
    calculateTargetValues id ctxA PRI 120 62 9000 sdA "Step A" =
      .ok ⟨some (10360/3), some (7960/3), some (10510/3)⟩ ∧
    (10510/3 : ℚ) ≠
      updateTargetValueFW eutA 1 100 (fwSetParams eutA 0.05 5 0)
        (62 - eutA.mraF * 1.5) + eutA.mraP * 1.5 := by
  constructor
  · norm_num [calculateTargetValues, ctxA, eutA, PRI, VV, updateTargetValueVW,
      updateTargetValueFW, vwSetParams, fwSetParams, pyRound, roundHalfEven,
      interp, pyInt, Eut.mraV, Eut.mraP, Eut.mraF]
  · norm_num [updateTargetValueFW, fwSetParams, eutA, Eut.mraF, Eut.mraP]

/-! ## C8 -/

/-- C8.  With `v_nom = 120` and `s_rated = 10000`, Volt-Var curve 1 has
break-points `V1 = 110.4`, `V2 = 117.6`, `V3 = 122.4`, `V4 = 129.6` with
`Q1 = 4400` and `Q4 = -4400`, and at power level 1.0 the VV target law gives
`target(117.6) = 0` and `target(110.4) = 4400`. -/
theorem c8_vv_curve1_scenario :
    vvSetParams eutA 0 = ⟨110.4, 117.6, 122.4, 129.6, 4400, 0, 0, -4400, 5.0⟩ ∧
    updateTargetValueVV 1 (vvSetParams eutA 0) 117.6 = 0 ∧
    updateTargetValueVV 1 (vvSetParams eutA 0) 110.4 = 4400 := by
  refine ⟨?_, ?_, ?_⟩
  · norm_num [vvSetParams, eutA, pyRound, roundHalfEven]
  · norm_num [updateTargetValueVV, vvSetParams, eutA, pyRound, roundHalfEven, interp]
  · norm_num [updateTargetValueVV, vvSetParams, eutA, pyRound, roundHalfEven, interp]

/-! ## C4 -/

set_option maxRecDepth 4000 in
/-- C4 counterexample.  Starting from `'A'` (code 65), a sequence of 53
`get_step_label()` calls emits a duplicate: call 27 and call 53 both return
`Step AA`, because once in double-letter mode the generator wraps from
`Step ZZ` back to `Step AA`.  This refutes the claim that the generator
never emits a duplicate label within one sequence of calls. -/
theorem c4_counterexample_duplicate_label :
    ¬ (labelSeq (setStepLabel 65) 53).Nodup ∧
    (labelSeq (setStepLabel 65) 53).get? 26 = some "Step AA" ∧
    (labelSeq (setStepLabel 65) 53).get? 52 = some "Step AA" := by
  refine ⟨by decide, by decide, by decide⟩

set_option maxRecDepth 4000 in
/-- C4 amended.  Starting from `'A'`, the first 26 labels are the single
letters `Step A` … `Step Z`, the next 26 are the doubled letters `Step AA`,
`Step BB`, …, `Step ZZ`, and these 52 labels are pairwise distinct; but the
53rd call wraps back to `Step AA`, so uniqueness holds only within the first
52 calls. -/
theorem c4_label_generator :
    (labelSeq (setStepLabel 65) 52).take 26 =
      (List.range 26).map (fun i => "Step ".push (Char.ofNat (65 + i))) ∧
    (labelSeq (setStepLabel 65) 52).drop 26 =
      (List.range 26).map
        (fun i => (("Step ".push (Char.ofNat (65 + i))).push (Char.ofNat (65 + i)))) ∧
    (labelSeq (setStepLabel 65) 52).Nodup ∧
    (labelSeq (setStepLabel 65) 53).get? 52 = some "Step AA" := by
  refine ⟨by decide, by decide, by decide, by decide⟩

/-! ## C9 -/

/-- C9 counterexample.  For the unrecognized function name `"XYZ"`,
`update_target_value` returns the plain value `None` (no exception at all),
and `calculate_target_values` fails with `UnboundLocalError` — neither
signals a `ConfigurationError` (the library defines only `p1547Error`,
raised solely by `VersionValidation`). -/
theorem c9_counterexample_unknown_function :
    updateTargetValue id ctxA "XYZ" 120 sdA = none ∧
    calculateTargetValues id ctxA "XYZ" 120 60 5000 sdA "Step A" =
      .error .unboundLocalError := by
  constructor
  · simp [updateTargetValue, VV, VW, CPF, CRP, WV, FW, LAP]
  · simp [calculateTargetValues, PRI, VV, VW, CPF, CRP, WV, FW, LAP]

/-- C9 amended.  For every function name outside the recognized set
`{PRI, VV, VW, CPF, CRP, WV, FW, LAP}`, `update_target_value` falls through
all branches and returns `None`, and `calculate_target_values` raises
`UnboundLocalError` at its final `return` — no `ConfigurationError` is
signalled. -/
theorem c9_unknown_function_behavior (sqrtFn : ℚ → ℚ) (ctx : Ctx)
    (function : String) (value v_meas f_meas p_meas : ℚ) (sd : StepDict)
    (lbl : String)
    (h : function ∉ [PRI, VV, VW, CPF, CRP, WV, FW, LAP]) :
    updateTargetValue sqrtFn ctx function value sd = none ∧
    calculateTargetValues sqrtFn ctx function v_meas f_meas p_meas sd lbl =
      .error .unboundLocalError := by
  simp only [List.mem_cons, List.mem_singleton, not_or] at h
  obtain ⟨h1, h2, h3, h4, h5, h6, h7, h8⟩ := h
  constructor
  · simp [updateTargetValue, h2, h3, h4, h5, h6, h7, h8]
  · simp [calculateTargetValues, h1, h2, h3, h4, h5, h6, h7, h8]

/-- C9 witness: the amended behavior at the concrete name `"XYZ"`. -/
theorem c9_witness :
    "XYZ" ∉ [PRI, VV, VW, CPF, CRP, WV, FW, LAP] ∧
    (updateTargetValue id ctxA "XYZ" 120 sdA = none ∧
     calculateTargetValues id ctxA "XYZ" 120 60 5000 sdA "Step A" =
       .error .unboundLocalError) :=
  ⟨by decide, c9_unknown_function_behavior id ctxA "XYZ" 120 120 60 5000 sdA "Step A" (by decide)⟩

/-! ## C10 -/

/-- C10 counterexample.  `extend_list_end` never truncates: applied to the
three-element list `[1, 2, 3]` with requested final length 2, it returns the
list unchanged (length 3), refuting "a longer sequence is truncated" and
"always returns a list of exactly n elements". -/
theorem c10_counterexample_no_truncation :
    extendListEnd [1, 2, 3] 0 2 = [1, 2, 3] ∧
    (extendListEnd [1, 2, 3] 0 2).length ≠ 2 := by
  refine ⟨by decide, by decide⟩

/-- C10 amended.  `extend_list_end(_list, v, n)` pads a shorter list with
`v` up to exactly `n` elements and returns a list of `max n len` elements
(an over-long list is returned unchanged, not truncated); consequently the
driver arrays of `set_vrt_model_parameters` / `set_frt_model_parameters` /
`set_pcrt_model_parameters` have exactly 20 / 4 / 11 slots whenever the
generated sequence fits, and `max slots len` slots in general. -/
theorem c10_extend_pad_no_truncate :
    (∀ (l : List ℚ) (v : ℚ) (n : ℕ),
      (extendListEnd l v n).length = max n l.length ∧
      (extendListEnd l v n).take l.length = l ∧
      (extendListEnd l v n).drop l.length = List.replicate (n - l.length) v) ∧
    (∀ rows : List SeqRow,
      (vrtModelArrays rows).map List.length =
        [20, max 20 rows.length, max 20 rows.length, max 20 rows.length,
         max 20 rows.length]) ∧
    (∀ rows : List SeqRow,
      (frtModelArrays rows).map List.length = List.replicate 4 (max 4 rows.length)) ∧
    (∀ rows : List SeqRow,
      (pcrtModelArrays rows).map List.length = List.replicate 4 (max 11 rows.length)) := by
  have hlen : ∀ (l : List ℚ) (v : ℚ) (n : ℕ),
      (extendListEnd l v n).length = max n l.length := by
    intro l v n
    simp only [extendListEnd, List.length_append, List.length_replicate]
    omega
  refine ⟨fun l v n => ⟨hlen l v n, ?_, ?_⟩, ?_, ?_, ?_⟩
  · simp [extendListEnd, List.take_left]
  · simp [extendListEnd, List.drop_left]
  · intro rows
    simp only [vrtModelArrays, List.map_cons, List.map_nil, hlen]
    simp [clearingSteps]
  · intro rows
    simp only [frtModelArrays, List.map_cons, List.map_nil, hlen]
    simp [List.replicate]
  · intro rows
    simp only [pcrtModelArrays, List.map_cons, List.map_nil, hlen]
    simp [List.replicate]

/-! ## C5 -/

/-- C5.  For PRI, `calculate_target_values` computes the VW target from the
measured voltage and the FW target from the measured frequency and returns
the numerically lower of the two as the target, together with the chosen
function's min/max window (VW's window when VW is strictly lower, FW's
window otherwise). -/
theorem c5_pri_selects_lower_target (sqrtFn : ℚ → ℚ) (ctx : Ctx)
    (v_meas f_meas p_meas : ℚ) (sd : StepDict) (lbl : String) :
    calculateTargetValues sqrtFn ctx PRI v_meas f_meas p_meas sd lbl =
      .ok ⟨some (min (updateTargetValueVW ctx.eut ctx.pwr ctx.vw v_meas)
                     (updateTargetValueFW ctx.eut ctx.pwr ctx.maxPwrLim ctx.fw f_meas)),
           some (if updateTargetValueVW ctx.eut ctx.pwr ctx.vw v_meas <
                    updateTargetValueFW ctx.eut ctx.pwr ctx.maxPwrLim ctx.fw f_meas
                 then updateTargetValueVW ctx.eut ctx.pwr ctx.vw
                        (v_meas + ctx.eut.mraV * 1.5) - ctx.eut.mraP * 1.5
                 else updateTargetValueFW ctx.eut ctx.pwr ctx.maxPwrLim ctx.fw
                        (f_meas + ctx.eut.mraF * 1.5) - ctx.eut.mraP * 1.5),
           some (if updateTargetValueVW ctx.eut ctx.pwr ctx.vw v_meas <
                    updateTargetValueFW ctx.eut ctx.pwr ctx.maxPwrLim ctx.fw f_meas
                 then updateTargetValueVW ctx.eut ctx.pwr ctx.vw
                        (v_meas - ctx.eut.mraV * 1.5) + ctx.eut.mraP * 1.5
                 else updateTargetValueFW ctx.eut ctx.pwr ctx.maxPwrLim ctx.fw
                        (f_meas - ctx.eut.mraF * 1.5))⟩ := by
  simp only [calculateTargetValues, reduceIte]
  by_cases h : updateTargetValueVW ctx.eut ctx.pwr ctx.vw v_meas <
      updateTargetValueFW ctx.eut ctx.pwr ctx.maxPwrLim ctx.fw f_meas
  · simp only [if_pos h, min_eq_left (le_of_lt h)]
  · simp only [if_neg h, min_eq_right (not_lt.mp h)]

/-! ## C3 -/

/-- C3.  Every generated ride-through test sequence — voltage (any of the
four modes, both consecutive settings, any magnitude policy), frequency
(any configured period/magnitude) and phase-change (any test number) —
satisfies the running-sum timing contract: `start[0] = T0`,
`end[i] = start[i] + duration[i]`, and `start[i+1] = end[i]`; moreover every
condition occupies a strictly positive time interval (for the frequency
sequence, provided the configured disturbance period is positive), so the
timestamps are strictly increasing and contiguous. -/
theorem c3_ride_through_timing :
    (∀ (m : VrtMode) (consecutive : Bool) (vals : CondLetter → ℚ) (t0 : ℚ),
       TimedOk t0 (vrtGetTestSequence m consecutive vals t0) ∧
       RowsStrict (vrtGetTestSequence m consecutive vals t0)) ∧
    (∀ (f_nom period value t0 : ℚ),
       TimedOk t0 (frtGetTestSequence f_nom period value t0) ∧
       (0 < period → RowsStrict (frtGetTestSequence f_nom period value t0))) ∧
    (∀ (test_num t0 : ℚ),
       TimedOk t0 (pcrtGetTestSequence test_num t0) ∧
       RowsStrict (pcrtGetTestSequence test_num t0)) := by
  refine ⟨fun m consecutive vals t0 => ⟨buildTimed_timedOk _ _, ?_⟩,
          fun f_nom period value t0 => ⟨buildTimed_timedOk _ _, fun hp => ?_⟩,
          fun test_num t0 => ⟨buildTimed_timedOk _ _, ?_⟩⟩
  · apply buildTimed_start_lt_stop
    rw [← List.forall_iff_forall_mem]
    cases m <;> cases consecutive <;>
      (simp only [vrtGetTestSequence, vrtLetters, List.map_cons, List.map_nil,
        List.Forall, vrtDur]; norm_num)
  · apply buildTimed_start_lt_stop
    rw [← List.forall_iff_forall_mem]
    simp only [frtGetTestSequence, List.Forall]
    exact ⟨by norm_num, hp, by norm_num⟩
  · apply buildTimed_start_lt_stop
    rw [← List.forall_iff_forall_mem]
    simp only [pcrtGetTestSequence, List.Forall]
    refine ⟨by norm_num [pcrtCondition], ?_, by norm_num [pcrtCondition]⟩
    have hall : ∀ L : CondLetter, 0 < (pcrtCondition L).dur := by
      intro L
      cases L <;> norm_num [pcrtCondition]
    exact hall _

/-- C3 witness: the frequency ride-through sequence with nominal frequency
60 Hz, a 2 s disturbance period at 57 Hz and a 5 s startup time satisfies
the timing contract and is strictly increasing. -/
theorem c3_witness :
    (0 : ℚ) < 2 ∧
    (TimedOk 5 (frtGetTestSequence 60 2 57 5) ∧
     (0 < (2:ℚ) → RowsStrict (frtGetTestSequence 60 2 57 5))) :=
  ⟨by norm_num, c3_ride_through_timing.2.1 60 2 57 5⟩

/-! ## C2 -/

/-- C2 counterexample.  At power level 0.5 the VW target escapes the claimed
interval: for `eutA` (absorption disabled, `p_min = 1000`, `p_rated = 10000`)
and VW curve 1, the target at 132 V is `round(max(P2, p_min) * 0.5, 1) = 500`,
which is below `p_min`.  The claim quantifies over every configured power
level, so it fails. -/
theorem c2_counterexample_low_power_level :
    updateTargetValueVW eutA (1/2) (vwSetParams eutA 0) 132 = 500 ∧
    (500 : ℚ) < eutA.p_min ∧ eutA.absorb = false := by
  refine ⟨?_, by norm_num [eutA], rfl⟩
  norm_num [updateTargetValueVW, vwSetParams, eutA, pyRound, roundHalfEven, interp, pyInt]

/-- Bound for the VW law at full power: the interpolated and `p_min`-clamped
value rounded to one decimal stays in `[p_min, p_rated]` whenever both curve
powers are at most `p_rated` and `p_min`, `p_rated` are whole multiples of
0.1 (so rounding cannot cross the bounds). -/
theorem updateTargetValueVW_bounds (e : Eut) (c : VWCurve) (v : ℚ)
    (hP1 : c.P1 ≤ e.p_rated) (hP2 : c.P2 ≤ e.p_rated)
    (hle : e.p_min ≤ e.p_rated)
    (km : ℤ) (hkm : e.p_min * 10 = km) (kr : ℤ) (hkr : e.p_rated * 10 = kr) :
    e.p_min ≤ updateTargetValueVW e 1 c v ∧
    updateTargetValueVW e 1 c v ≤ e.p_rated := by
  unfold updateTargetValueVW
  set p0 := interp v [(c.V1, c.P1), (c.V2, c.P2)] with hp0
  have hup : p0 ≤ e.p_rated := interp_pair_le v c.V1 c.P1 c.V2 c.P2 e.p_rated hP1 hP2
  set p1 := if p0 < e.p_min then e.p_min else p0 with hp1
  have h1lo : e.p_min ≤ p1 := by
    rw [hp1]; split_ifs with h
    · exact le_refl _
    · exact not_lt.mp h
  have h1hi : p1 ≤ e.p_rated := by
    rw [hp1]; split_ifs with h
    · exact hle
    · exact hup
  have hm1 : p1 * 1 = p1 := mul_one p1
  constructor
  · apply le_pyRound_of_le 1 e.p_min (p1 * 1) km
    · simpa using hkm
    · rw [hm1]; exact h1lo
  · apply pyRound_le_of_le 1 e.p_rated (p1 * 1) kr
    · simpa using hkr
    · rw [hm1]; exact h1hi

/-- Bound for the FW droop law at full power (`pwr = 1`,
`max_pwr_lim = 100`): the target stays in `[p_min, p_rated]` for every
frequency, provided `0 ≤ p_min ≤ p_rated` and the droop denominator
`f_nom * kof` is positive. -/
theorem updateTargetValueFW_bounds (e : Eut) (c : FWCurve) (f : ℚ)
    (h0 : 0 ≤ e.p_min) (hle : e.p_min ≤ e.p_rated)
    (hk : 0 < e.f_nom * c.kof) :
    e.p_min ≤ updateTargetValueFW e 1 100 c f ∧
    updateTargetValueFW e 1 100 c f ≤ e.p_rated := by
  have hpr : 0 ≤ e.p_rated := le_trans h0 hle
  have hdb : (if (1:ℚ) * 100 < 100 then (1:ℚ) else 100 / 100) = 1 := by norm_num
  simp only [updateTargetValueFW, hdb]
  split_ifs with h1 h2 h3 h4
  · rw [one_mul]; exact ⟨hle, le_refl _⟩
  · exact ⟨le_refl _, hle⟩
  · constructor
    · exact not_lt.mp h3
    · have hq : 0 ≤ (f - (e.f_nom + c.dbf)) / (e.f_nom * c.kof) :=
        div_nonneg (by linarith [h2]) (le_of_lt hk)
      nlinarith
  · rw [one_mul]; exact ⟨hle, le_refl _⟩
  · push_neg at h1 h2 h4
    have hq : 0 ≤ (e.f_nom - c.dbf - f) / (e.f_nom * c.kof) := by
      apply div_nonneg _ (le_of_lt hk)
      rcases lt_or_le f (e.f_nom - c.dbf) with hf | hf
      · linarith
      · exact absurd (h1 hf) (not_lt.mpr h2)
    constructor
    · nlinarith
    · nlinarith [h4]

/-- C2 amended.  At the full configured power level (`pwr = 1.0`,
`max_pwr_lim = 100`), for every standard curve produced by `set_params`
(indices 1-3, absorption enabled or not) and every independent-variable
input, the VW and FW targets lie within `[p_min, p_rated]` — hence also
within `[p_rated_prime, p_rated]` when absorption is enabled.  The EUT is
assumed well-formed: `0 ≤ p_min ≤ p_rated`, `p_rated_prime ≤ 0`, `p_min`
and `p_rated` whole watt values, and a positive nominal frequency. -/
theorem c2_full_power_targets_bounded (e : Eut) (i : Fin 3)
    (h0 : 0 ≤ e.p_min) (hle : e.p_min ≤ e.p_rated) (hpp : e.p_rated_prime ≤ 0)
    (hm : ∃ a : ℤ, e.p_min = (a : ℚ)) (hr : ∃ b : ℤ, e.p_rated = (b : ℚ))
    (hf : 0 < e.f_nom) (p_small tr v f : ℚ) :
    (e.p_min ≤ updateTargetValueVW e 1 (vwSetParams e i) v ∧
     updateTargetValueVW e 1 (vwSetParams e i) v ≤ e.p_rated ∧
     e.p_rated_prime ≤ updateTargetValueVW e 1 (vwSetParams e i) v) ∧
    (e.p_min ≤ updateTargetValueFW e 1 100 (fwSetParams e p_small tr i) f ∧
     updateTargetValueFW e 1 100 (fwSetParams e p_small tr i) f ≤ e.p_rated ∧
     e.p_rated_prime ≤ updateTargetValueFW e 1 100 (fwSetParams e p_small tr i) f) := by
  obtain ⟨a, ha⟩ := hm
  obtain ⟨b, hb⟩ := hr
  have hint : e.p_rated * (10:ℚ)^2 = ((100 * b : ℤ) : ℚ) := by
    push_cast; rw [hb]; ring
  have hr2 : pyRound 2 e.p_rated = e.p_rated := pyRound_of_mul_pow_int 2 _ _ hint
  have hprP1 : (vwSetParams e i).P1 = e.p_rated := by
    fin_cases i <;> simpa [vwSetParams] using hr2
  have hprP2 : (vwSetParams e i).P2 ≤ e.p_rated := by
    have h02 : (pyInt (0.2 * e.p_rated) : ℚ) ≤ e.p_rated := by
      calc (pyInt (0.2 * e.p_rated) : ℚ) ≤ 0.2 * e.p_rated :=
            pyInt_le_self _ (by nlinarith)
        _ ≤ e.p_rated := by nlinarith
    have h0m : (pyInt e.p_min : ℚ) ≤ e.p_rated := by
      calc (pyInt e.p_min : ℚ) ≤ e.p_min := pyInt_le_self _ h0
        _ ≤ e.p_rated := hle
    have hzero : (0:ℚ) ≤ e.p_rated := le_trans h0 hle
    have hprime : e.p_rated_prime ≤ e.p_rated := le_trans hpp hzero
    fin_cases i <;> simp only [vwSetParams] <;> split_ifs <;>
      first
        | exact hzero
        | exact hprime
        | exact h02
        | exact h0m
  have hvw := updateTargetValueVW_bounds e (vwSetParams e i) v hprP1.le hprP2 hle
    (10 * a) (by rw [ha]; push_cast; ring) (10 * b) (by rw [hb]; push_cast; ring)
  have hkof : 0 < e.f_nom * (fwSetParams e p_small tr i).kof := by
    fin_cases i <;> simp only [fwSetParams] <;> nlinarith
  have hfw := updateTargetValueFW_bounds e (fwSetParams e p_small tr i) f h0 hle hkof
  exact ⟨⟨hvw.1, hvw.2, le_trans (le_trans hpp h0) hvw.1⟩,
         ⟨hfw.1, hfw.2, le_trans (le_trans hpp h0) hfw.1⟩⟩

/-- C2 witness: the amended bound at the concrete EUT `eutA`, curve 1,
`p_small = 0.05`, `tr = 5`, inputs 125 V and 61 Hz. -/
theorem c2_witness :
    (0:ℚ) ≤ eutA.p_min ∧ eutA.p_min ≤ eutA.p_rated ∧ eutA.p_rated_prime ≤ 0 ∧
    (0:ℚ) < eutA.f_nom ∧
    ((eutA.p_min ≤ updateTargetValueVW eutA 1 (vwSetParams eutA 0) 125 ∧
      updateTargetValueVW eutA 1 (vwSetParams eutA 0) 125 ≤ eutA.p_rated ∧
      eutA.p_rated_prime ≤ updateTargetValueVW eutA 1 (vwSetParams eutA 0) 125) ∧
     (eutA.p_min ≤ updateTargetValueFW eutA 1 100 (fwSetParams eutA 0.05 5 0) 61 ∧
      updateTargetValueFW eutA 1 100 (fwSetParams eutA 0.05 5 0) 61 ≤ eutA.p_rated ∧
      eutA.p_rated_prime ≤ updateTargetValueFW eutA 1 100 (fwSetParams eutA 0.05 5 0) 61)) :=
  ⟨by norm_num [eutA], by norm_num [eutA], by norm_num [eutA], by norm_num [eutA],
   c2_full_power_targets_bounded eutA 0 (by norm_num [eutA]) (by norm_num [eutA])
     (by norm_num [eutA]) ⟨1000, by norm_num [eutA]⟩ ⟨10000, by norm_num [eutA]⟩
     (by norm_num [eutA]) 0.05 5 125 61⟩

/-! ## C6 -/

/-- C6.  The open-loop response model with a positive response time `tr`:
at duration 0 it returns exactly `y0`; as the duration tends to infinity it
converges to `y_ss`; and at duration `tr` (with time constant
`tr / (-ln 0.1)`) it returns `y0 + 0.9 * (y_ss - y0)`, i.e. 90 % of the
commanded change. -/
theorem c6_open_loop_model (y0 y_ss tr : ℝ) (htr : 0 < tr) :
    calculateOpenLoopValue y0 y_ss 0 tr = y0 ∧
    Filter.Tendsto (fun d => calculateOpenLoopValue y0 y_ss d tr)
      Filter.atTop (nhds y_ss) ∧
    calculateOpenLoopValue y0 y_ss tr tr = y0 + 0.9 * (y_ss - y0) := by
  have hL : -Real.log 0.1 = Real.log 10 := by
    rw [show (0.1:ℝ) = 10⁻¹ by norm_num, Real.log_inv, neg_neg]
  have hLpos : 0 < Real.log 10 := Real.log_pos (by norm_num)
  have hc : 0 < tr / (-Real.log 0.1) := by
    rw [hL]; exact div_pos htr hLpos
  refine ⟨?_, ?_, ?_⟩
  · simp [calculateOpenLoopValue]
  · have h1 : Filter.Tendsto (fun d : ℝ => d / (tr / (-Real.log 0.1)))
        Filter.atTop Filter.atTop :=
      Filter.tendsto_id.atTop_div_const hc
    have h2 : Filter.Tendsto (fun d : ℝ => -(d / (tr / (-Real.log 0.1))))
        Filter.atTop Filter.atBot :=
      Filter.tendsto_neg_atTop_atBot.comp h1
    have h3 : Filter.Tendsto
        (fun d : ℝ => Real.exp (-(d / (tr / (-Real.log 0.1)))))
        Filter.atTop (nhds 0) :=
      Real.tendsto_exp_atBot.comp h2
    have h4 : Filter.Tendsto
        (fun d : ℝ => (y_ss - y0) *
          (1 - Real.exp (-(d / (tr / (-Real.log 0.1))))) + y0)
        Filter.atTop (nhds ((y_ss - y0) * (1 - 0) + y0)) :=
      ((tendsto_const_nhds.sub h3).const_mul _).add tendsto_const_nhds
    have heq : (y_ss - y0) * (1 - 0) + y0 = y_ss := by ring
    rw [heq] at h4
    simpa only [calculateOpenLoopValue] using h4
  · have htaus : tr / (tr / (-Real.log 0.1)) = Real.log 10 := by
      rw [hL]
      field_simp
    simp only [calculateOpenLoopValue, htaus]
    rw [Real.exp_neg, Real.exp_log (by norm_num : (0:ℝ) < 10)]
    ring

/-- C6 witness: the scenario `y0 = 0`, `y_ss = 100`, `tr = 10`: the response
is 0 at duration 0, converges to 100, and reaches 90 at duration 10. -/
theorem c6_witness :
    (0:ℝ) < 10 ∧
    (calculateOpenLoopValue 0 100 0 10 = 0 ∧
     Filter.Tendsto (fun d => calculateOpenLoopValue 0 100 d 10)
       Filter.atTop (nhds 100) ∧
     calculateOpenLoopValue 0 100 10 10 = 0 + 0.9 * (100 - 0)) :=
  ⟨by norm_num, c6_open_loop_model 0 100 10 (by norm_num)⟩

/-! ## C7 -/

open Classical in
/-- C7.  The transient verdict of `open_loop_resp_criteria` is `Pass` exactly
under the claimed conditions: for the CRP script the test is one-sided
(`y_min ≤ y_meas` when the response is increasing, `y_meas ≤ y_max` when
decreasing), and for every other script it is the two-sided test
`y_min ≤ y_meas ≤ y_max`, with `y_min`/`y_max` the open-loop envelope
bounds. -/
theorem c7_transient_verdict (script : String)
    (initialY y_ss y_meas duration tr mraT mraY : ℝ) :
    openLoopRespCriteria script initialY y_ss y_meas duration tr mraT mraY = true ↔
      (if script = CRP then
        (if olIncreasing script initialY y_ss duration tr
         then olYMin script initialY y_ss duration tr mraT mraY ≤ y_meas
         else y_meas ≤ olYMax script initialY y_ss duration tr mraT mraY)
       else (olYMin script initialY y_ss duration tr mraT mraY ≤ y_meas ∧
             y_meas ≤ olYMax script initialY y_ss duration tr mraT mraY)) := by
  unfold openLoopRespCriteria
  split_ifs <;> simp

end P1547
